import Mathlib

/-!
Shallow embedding of the stem-extraction pipeline of the repository
(src/app.py and src/pages/English.py).  Audio buffers are modelled as
0-, 1- or 2-dimensional arrays of rational samples; the separation
model, the noise-reduction routine and the WAV writer are external
collaborators modelled as oracle parameters.  UI calls (st.warning,
st.error, st.progress, ...) and library effects are modelled as an
event trace and a list of written files.
-/

namespace StemSep

/-- A numpy-style array of rational samples: 0-d scalar, 1-d vector, or
2-d matrix given as a column count (channels) and a list of rows (frames). -/
inductive Arr where
  | a0 (x : ℚ)
  | a1 (xs : List ℚ)
  | a2 (cols : Nat) (rows : List (List ℚ))
deriving DecidableEq

/-- numpy ndim. -/
def Arr.ndim : Arr → Nat
  | .a0 _ => 0
  | .a1 _ => 1
  | .a2 _ _ => 2

/-- numpy size (product of the shape). -/
def Arr.size : Arr → Nat
  | .a0 _ => 1
  | .a1 xs => xs.length
  | .a2 c rows => rows.length * c

/-- shape[1]; the code reads it only after checking ndim == 2. -/
def Arr.shape1 : Arr → Nat
  | .a0 _ => 0
  | .a1 _ => 0
  | .a2 c _ => c

/-- Rectangularity of the 2-d case: every row has cols entries
(numpy arrays are rectangular by construction). -/
def Arr.wf : Arr → Bool
  | .a0 _ => true
  | .a1 _ => true
  | .a2 c rows => rows.all (fun r => r.length == c)

/-- mean(axis := 1) of a (frames, channels) array: channel average per frame. -/
def Arr.meanAxis1 : Arr → Arr
  | .a2 c rows => .a1 (rows.map (fun r => r.sum / (c : ℚ)))
  | a => a

/-- numpy squeeze: remove axes of length 1. -/
def Arr.squeeze : Arr → Arr
  | .a0 x => .a0 x
  | .a1 xs => if xs.length = 1 then .a0 (xs.headD 0) else .a1 xs
  | .a2 c rows =>
      if c = 1 then
        if rows.length = 1 then .a0 ((rows.headD []).headD 0)
        else .a1 (rows.map (fun r => r.headD 0))
      else
        if rows.length = 1 then .a1 (rows.headD [])
        else .a2 c rows

/-- All samples of the array in row-major order. -/
def Arr.toList : Arr → List ℚ
  | .a0 x => [x]
  | .a1 xs => xs
  | .a2 _ rows => rows.flatten

/-- The array is genuinely single channel: a 1-d vector or a 2-d array
with exactly one column. -/
def Arr.singleChannel : Arr → Bool
  | .a0 _ => false
  | .a1 _ => true
  | .a2 c _ => c == 1

/-- Trace events: streamlit warnings/errors and pipeline effects. -/
inductive Event where
  | warnMissing (stem : String)
  | warnInvalid (stem : String)
  | warnEmpty (stem : String)
  | errorStem (stem : String)
  | denoiseApplied (stem : String) (stationary : Bool) (propDecrease : ℚ)
  | progress (done total : Nat)
  | errorLoad
  | errorSeparate
  | errorUnexpected
  | errorExtract
  | errorProcess
deriving DecidableEq

/-- The stem a per-stem event is tagged with, if any. -/
def Event.stemOf : Event → Option String
  | .warnMissing s => some s
  | .warnInvalid s => some s
  | .warnEmpty s => some s
  | .errorStem s => some s
  | .denoiseApplied s _ _ => some s
  | _ => none

/-- Is this a progress-bar update event? -/
def Event.isProgress : Event → Bool
  | .progress _ _ => true
  | _ => false

/-- Is this a fatal-for-file error event (load / separation / unexpected)? -/
def Event.isFatal : Event → Bool
  | .errorLoad => true
  | .errorSeparate => true
  | .errorUnexpected => true
  | .errorProcess => true
  | _ => false

/-- Oracles for the external collaborators: the noisereduce routine
(arguments y, sr, stationary, prop_decrease, freq_mask_smooth_hz,
time_constant_s; a none result models a raised exception) and the
soundfile writer (false models a raised I/O exception). -/
structure Oracles where
  reduceNoise : List ℚ → Nat → Bool → ℚ → Option ℚ → Option ℚ → Option (List ℚ)
  sfWrite : String → Arr → Nat → Bool

/-- One WAV file on disk: path, sample data, sample rate and PCM subtype.
1-d data is written by soundfile as a single-channel (mono) file. -/
structure WavFile where
  path : String
  data : Arr
  sr : Nat
  subtype : String
deriving DecidableEq

/-- What one loop iteration contributes: written files, trace events,
and entries added to the result dictionary (stem, path). -/
structure StemDelta where
  files : List WavFile
  events : List Event
  result : List (String × String)
deriving DecidableEq

/-- Accumulated state of the extraction loop. -/
structure ExtractResult where
  files : List WavFile
  events : List Event
  result : List (String × String)
deriving DecidableEq

def appendDelta (st : ExtractResult) (d : StemDelta) : ExtractResult :=
  ⟨st.files ++ d.files, st.events ++ d.events, st.result ++ d.result⟩

/-- The fixed iteration order of stems (both variants). -/
def stemsToProcess : List String := ["vocals", "drums", "bass", "piano", "other"]

/-- output_folder / (base _ stem .wav), as built by both variants. -/
def mkPath (folder base stem : String) : String :=
  folder ++ "/" ++ base ++ "_" ++ stem ++ ".wav"

/-- app.py lines 125-135: validate the processed buffer is non-empty,
then sf.write(path, data, sr, subtype PCM_16) and record the path;
a write failure is the caught per-stem exception (errorStem). -/
def writeDelta (O : Oracles) (folder base : String) (sr : Nat) (stem : String)
    (processed : Arr) (evts : List Event) : StemDelta :=
  if 0 < processed.size then
    if O.sfWrite (mkPath folder base stem) processed sr then
      ⟨[⟨mkPath folder base stem, processed, sr, "PCM_16"⟩], evts,
        [(stem, mkPath folder base stem)]⟩
    else ⟨[], evts ++ [.errorStem stem], []⟩
  else ⟨[], evts ++ [.warnEmpty stem], []⟩

/-- app.py lines 101-139, the body of the per-stem try block: stereo
(ndim == 2 and shape[1] > 1) is channel-averaged, vocals additionally
denoised (stationary false, prop_decrease 0.6, other parameters left at
the library default); an already-mono buffer is squeezed and used as is.
A denoiser exception is caught per stem (errorStem). -/
def stemBody (O : Oracles) (folder base : String) (sr : Nat) (stem : String)
    (a : Arr) : StemDelta :=
  if a.ndim = 2 ∧ 1 < a.shape1 then
    if stem = "vocals" then
      match O.reduceNoise a.meanAxis1.toList sr false (6/10) none none with
      | none => ⟨[], [.errorStem stem], []⟩
      | some y =>
          writeDelta O folder base sr stem (.a1 y)
            [.denoiseApplied stem false (6/10)]
    else writeDelta O folder base sr stem a.meanAxis1 []
  else writeDelta O folder base sr stem a.squeeze []

/-- One iteration of the loop in app.py extract_stems (lines 87-142):
a missing key or an empty buffer hits continue (so the progress update
at line 142 is skipped); otherwise the try body runs and the progress
update (i + 1) / 5 is appended afterwards.  The isinstance ndarray check
is subsumed: every prediction value in the model is an array. -/
def stemStepApp (O : Oracles) (folder base : String) (sr : Nat)
    (pred : String → Option Arr) (i : Nat) (stem : String) : StemDelta :=
  match pred stem with
  | none => ⟨[], [.warnMissing stem], []⟩
  | some a =>
    if a.size = 0 then ⟨[], [.warnInvalid stem], []⟩
    else
      let d := stemBody O folder base sr stem a
      ⟨d.files, d.events ++ [.progress (i + 1) 5], d.result⟩

/-- MultiStemExtractor.extract_stems of src/app.py. -/
def extract_stems_app (O : Oracles) (folder base : String)
    (pred : String → Option Arr) (sr : Nat) : ExtractResult :=
  stemsToProcess.enum.foldl
    (fun st p => appendDelta st (stemStepApp O folder base sr pred p.1 p.2))
    ⟨[], [], []⟩

/-- English.py lines 72-77: sf.write without an explicit subtype; for a
WAV container the soundfile default subtype is PCM_16.  There is no
emptiness validation; a write failure raises out of the loop. -/
def englishWrite (O : Oracles) (folder base : String) (sr : Nat) (stem : String)
    (processed : Arr) (evts : List Event) : Except Unit StemDelta :=
  if O.sfWrite (mkPath folder base stem) processed sr then
    .ok ⟨[⟨mkPath folder base stem, processed, sr, "PCM_16"⟩], evts,
      [(stem, mkPath folder base stem)]⟩
  else .error ()

/-- One iteration of the loop in English.py extract_stems (lines 45-77):
len(shape) == 2 selects the downmix branch, vocals are denoised with
prop_decrease 0.4, freq_mask_smooth_hz 150, time_constant_s 1.0; any
exception propagates out of the loop. -/
def englishStemStep (O : Oracles) (folder base : String) (sr : Nat)
    (pred : String → Option Arr) (stem : String) : Except Unit StemDelta :=
  match pred stem with
  | none => .ok ⟨[], [.warnMissing stem], []⟩
  | some a =>
    if a.ndim = 2 then
      if stem = "vocals" then
        match O.reduceNoise a.meanAxis1.toList sr false (4/10) (some 150) (some 1) with
        | none => .error ()
        | some y =>
            englishWrite O folder base sr stem (.a1 y)
              [.denoiseApplied stem false (4/10)]
      else englishWrite O folder base sr stem a.meanAxis1 []
    else englishWrite O folder base sr stem a []

/-- The English.py extraction loop: on an exception, files already
written stay on disk but the except block returns an empty mapping. -/
def englishExtractGo (O : Oracles) (folder base : String) (sr : Nat)
    (pred : String → Option Arr) : List String → ExtractResult → ExtractResult
  | [], st => st
  | stem :: rest, st =>
    match englishStemStep O folder base sr pred stem with
    | .error _ => ⟨st.files, st.events ++ [.errorExtract], []⟩
    | .ok d => englishExtractGo O folder base sr pred rest (appendDelta st d)

/-- MultiStemExtractor.extract_stems of src/pages/English.py; base is
the stem of the temporary input path passed as audio_path. -/
def extract_stems_english (O : Oracles) (folder base : String)
    (pred : String → Option Arr) (sr : Nat) : ExtractResult :=
  englishExtractGo O folder base sr pred stemsToProcess ⟨[], [], []⟩

/-- The basename part of a path: characters after the last slash. -/
def afterLastSlash (cs : List Char) : List Char :=
  (cs.reverse.takeWhile (fun c => c ≠ '/')).reverse

/-- Drop the last extension, keeping a leading-dot-only name whole. -/
def stemChars (cs : List Char) : List Char :=
  match cs.reverse.dropWhile (fun c => c ≠ '.') with
  | [] => cs
  | _ :: rest => if rest = [] then cs else rest.reverse

/-- pathlib Path(p).stem: the final path component without its last suffix. -/
def pathStem (s : String) : String := ⟨stemChars (afterLastSlash s.data)⟩

/-- Observable outcome of one process_file call: the returned dictionary,
the files written during the call, the event trace, and whether the
temporary input file still exists after the call returns. -/
structure PFResult where
  result : List (String × String)
  files : List WavFile
  events : List Event
  tmpExists : Bool
deriving DecidableEq

/-- MultiStemExtractor.process_file of src/app.py (lines 148-215).
The uploaded bytes are written to a file inside a TemporaryDirectory;
tempWriteOk false models an exception while writing them (caught by the
outer except, which also cleans up); load models audio_loader.load
(none is a decode failure, caught at lines 177-181 with cleanup); sep
models separator.separate (none is a separation failure, caught at
lines 191-195 with cleanup); on success extract_stems runs with base
Path(file_name).stem and the temporary directory is cleaned up. -/
def process_file_app (O : Oracles) (tempWriteOk : Bool)
    (load : Option (Arr × Nat)) (sep : Arr → Option (String → Option Arr))
    (folder fileName : String) : PFResult :=
  if tempWriteOk = false then ⟨[], [], [.errorUnexpected], false⟩
  else
    match load with
    | none => ⟨[], [], [.errorLoad], false⟩
    | some (w, sr) =>
      match sep w with
      | none => ⟨[], [], [.errorSeparate], false⟩
      | some pred =>
        let ex := extract_stems_app O folder (pathStem fileName) pred sr
        ⟨ex.result, ex.files, ex.events, false⟩

/-- MultiStemExtractor.process_file of src/pages/English.py (lines
85-114).  The upload goes to a NamedTemporaryFile with delete false
whose random basename (without suffix) is tmpBase; os.unlink runs only
on the success path, so every caught exception (temp write, decode,
separation) leaves the temporary file behind.  extract_stems receives
tmp_path, hence artifact names use tmpBase, not fileName. -/
def process_file_english (O : Oracles) (tempWriteOk : Bool)
    (load : Option (Arr × Nat)) (sep : Arr → Option (String → Option Arr))
    (folder tmpBase fileName : String) : PFResult :=
  if tempWriteOk = false then ⟨[], [], [.errorProcess], true⟩
  else
    match load with
    | none => ⟨[], [], [.errorProcess], true⟩
    | some (w, sr) =>
      match sep w with
      | none => ⟨[], [], [.errorProcess], true⟩
      | some pred =>
        let ex := extract_stems_english O folder tmpBase pred sr
        ⟨ex.result, ex.files, ex.events, false⟩

/-- The per-stem checks of app.py lines 89-99: the stem is present in
the prediction and its buffer is non-empty. -/
def presentValid (pred : String → Option Arr) (stem : String) : Bool :=
  match pred stem with
  | none => false
  | some a => a.size != 0

/-- Benign oracles: the denoiser returns its input, every write succeeds. -/
def oracleOk : Oracles :=
  ⟨fun y _ _ _ _ _ => some y, fun _ _ _ => true⟩

/-- Oracles whose denoiser raises on every call. -/
def oracleDenoiseRaises : Oracles :=
  ⟨fun _ _ _ _ _ _ => none, fun _ _ _ => true⟩

/-- Oracles that fail to write exactly the given path. -/
def oracleFailPath (bad : String) : Oracles :=
  ⟨fun y _ _ _ _ _ => some y, fun p _ _ => p ≠ bad⟩

/-- Oracles whose denoiser returns an empty signal. -/
def oracleDenoiseEmpty : Oracles :=
  ⟨fun _ _ _ _ _ _ => some [], fun _ _ _ => true⟩

/-- A concrete prediction with stereo vocals and stereo drums. -/
def predStereoVD : String → Option Arr :=
  fun s => if s = "vocals" then some (.a2 2 [[1, 3]])
    else if s = "drums" then some (.a2 2 [[2, 4]]) else none

/-- A concrete prediction missing only the piano stem. -/
def predNoPiano : String → Option Arr :=
  fun s => if s = "piano" then none else some (.a2 2 [[1, 3]])

/-- Path construction is injective in the stem name. -/
theorem mkPath_inj (f b s s' : String) (h : mkPath f b s = mkPath f b s') :
    s = s' := by
  have hd : (mkPath f b s).data = (mkPath f b s').data := congrArg String.data h
  unfold mkPath at hd
  simp only [String.data_append, List.append_assoc] at hd
  have h1 := List.append_cancel_left hd
  have h2 := List.append_cancel_left h1
  have h3 := List.append_cancel_left h2
  have h4 := List.append_cancel_left h3
  have h5 := List.append_cancel_right h4
  cases s; cases s'; exact congrArg String.mk h5

/-- A nonempty array that fails the stereo test squeezes to at most 1-d. -/
theorem Arr.squeeze_ndim_le (a : Arr) (hs : a.size ≠ 0)
    (h : ¬(a.ndim = 2 ∧ 1 < a.shape1)) : a.squeeze.ndim ≤ 1 := by
  cases a with
  | a0 x => simp [Arr.squeeze, Arr.ndim]
  | a1 xs =>
    simp only [Arr.squeeze]
    split <;> simp [Arr.ndim]
  | a2 c rows =>
    have hc : c = 1 := by
      rcases Nat.lt_or_ge 1 c with h1 | h1
      · exact absurd ⟨rfl, h1⟩ h
      · interval_cases c
        · simp [Arr.size] at hs
        · rfl
    subst hc
    by_cases hr : rows.length = 1 <;> simp [Arr.squeeze, hr, Arr.ndim]

/-- If every row has one entry, taking heads equals flattening. -/
theorem map_headD_eq_flatten (rows : List (List ℚ))
    (h : ∀ r ∈ rows, r.length = 1) :
    rows.map (fun r => r.headD 0) = rows.flatten := by
  induction rows with
  | nil => simp
  | cons r rest ih =>
    have hr := h r (by simp)
    obtain ⟨x, rfl⟩ := List.length_eq_one.mp hr
    simpa using ih (fun q hq => h q (by simp [hq]))

/-- Squeezing a rectangular array preserves the sample sequence. -/
theorem Arr.squeeze_toList (a : Arr) (hwf : a.wf = true) :
    a.squeeze.toList = a.toList := by
  cases a with
  | a0 x => rfl
  | a1 xs =>
    simp only [Arr.squeeze]
    split
    · next hlen =>
      obtain ⟨x, rfl⟩ := List.length_eq_one.mp hlen
      rfl
    · rfl
  | a2 c rows =>
    have hall : ∀ r ∈ rows, r.length = c := by
      intro r hr
      have h2 := (List.all_eq_true.mp hwf) r hr
      simpa using h2
    simp only [Arr.squeeze]
    split
    · next hc =>
      subst hc
      split
      · next hlen =>
        obtain ⟨r, rfl⟩ := List.length_eq_one.mp hlen
        obtain ⟨x, rfl⟩ := List.length_eq_one.mp (hall r (by simp))
        simp [Arr.toList]
      · next =>
        simp only [Arr.toList]
        exact map_headD_eq_flatten rows (fun r hr => hall r hr)
    · next =>
      split
      · next hlen =>
        obtain ⟨r, rfl⟩ := List.length_eq_one.mp hlen
        simp [Arr.toList]
      · rfl

/-- extract_stems_app unfolds to the five per-stem contributions. -/
theorem extract_stems_app_decomp (O : Oracles) (folder base : String)
    (pred : String → Option Arr) (sr : Nat) :
    extract_stems_app O folder base pred sr =
      appendDelta (appendDelta (appendDelta (appendDelta (appendDelta ⟨[], [], []⟩
        (stemStepApp O folder base sr pred 0 "vocals"))
        (stemStepApp O folder base sr pred 1 "drums"))
        (stemStepApp O folder base sr pred 2 "bass"))
        (stemStepApp O folder base sr pred 3 "piano"))
        (stemStepApp O folder base sr pred 4 "other") := rfl

theorem extract_app_events (O : Oracles) (folder base : String)
    (pred : String → Option Arr) (sr : Nat) :
    (extract_stems_app O folder base pred sr).events =
      (stemStepApp O folder base sr pred 0 "vocals").events ++
      ((stemStepApp O folder base sr pred 1 "drums").events ++
      ((stemStepApp O folder base sr pred 2 "bass").events ++
      ((stemStepApp O folder base sr pred 3 "piano").events ++
      (stemStepApp O folder base sr pred 4 "other").events))) := by
  rw [extract_stems_app_decomp]
  simp [appendDelta]

theorem extract_app_files (O : Oracles) (folder base : String)
    (pred : String → Option Arr) (sr : Nat) :
    (extract_stems_app O folder base pred sr).files =
      (stemStepApp O folder base sr pred 0 "vocals").files ++
      ((stemStepApp O folder base sr pred 1 "drums").files ++
      ((stemStepApp O folder base sr pred 2 "bass").files ++
      ((stemStepApp O folder base sr pred 3 "piano").files ++
      (stemStepApp O folder base sr pred 4 "other").files))) := by
  rw [extract_stems_app_decomp]
  simp [appendDelta]

theorem extract_app_result (O : Oracles) (folder base : String)
    (pred : String → Option Arr) (sr : Nat) :
    (extract_stems_app O folder base pred sr).result =
      (stemStepApp O folder base sr pred 0 "vocals").result ++
      ((stemStepApp O folder base sr pred 1 "drums").result ++
      ((stemStepApp O folder base sr pred 2 "bass").result ++
      ((stemStepApp O folder base sr pred 3 "piano").result ++
      (stemStepApp O folder base sr pred 4 "other").result))) := by
  rw [extract_stems_app_decomp]
  simp [appendDelta]

/-- Events emitted by the writer step are inherited or tagged with its stem. -/
theorem writeDelta_stemOf (O : Oracles) (f b : String) (sr : Nat) (stem : String)
    (p : Arr) (evts : List Event) :
    ∀ e ∈ (writeDelta O f b sr stem p evts).events,
      e ∈ evts ∨ e.stemOf = some stem := by
  intro e he
  unfold writeDelta at he
  split at he
  · split at he
    · exact Or.inl he
    · simp only [List.mem_append, List.mem_singleton] at he
      rcases he with he | he
      · exact Or.inl he
      · subst he; right; rfl
  · simp only [List.mem_append, List.mem_singleton] at he
    rcases he with he | he
    · exact Or.inl he
    · subst he; right; rfl

/-- Every event emitted by the try body is tagged with its stem. -/
theorem stemBody_stemOf (O : Oracles) (f b : String) (sr : Nat) (stem : String)
    (a : Arr) :
    ∀ e ∈ (stemBody O f b sr stem a).events, e.stemOf = some stem := by
  intro e he
  unfold stemBody at he
  split at he
  · split at he
    · split at he
      · simp only [List.mem_singleton] at he; subst he; rfl
      · rcases writeDelta_stemOf _ _ _ _ _ _ _ e he with h | h
        · simp only [List.mem_singleton] at h; subst h; rfl
        · exact h
    · rcases writeDelta_stemOf _ _ _ _ _ _ _ e he with h | h
      · simp at h
      · exact h
  · rcases writeDelta_stemOf _ _ _ _ _ _ _ e he with h | h
    · simp at h
    · exact h

/-- Every event of one loop iteration is a progress update or tagged with
its stem. -/
theorem stemStepApp_stemOf (O : Oracles) (f b : String) (sr : Nat)
    (pred : String → Option Arr) (i : Nat) (stem : String) :
    ∀ e ∈ (stemStepApp O f b sr pred i stem).events,
      e.stemOf = none ∨ e.stemOf = some stem := by
  intro e he
  unfold stemStepApp at he
  split at he
  · simp only [List.mem_singleton] at he; subst he; right; rfl
  · split at he
    · simp only [List.mem_singleton] at he; subst he; right; rfl
    · simp only [List.mem_append, List.mem_singleton] at he
      rcases he with he | he
      · exact Or.inr (stemBody_stemOf _ _ _ _ _ _ e he)
      · subst he; left; rfl

/-- The writer step emits no progress events of its own. -/
theorem writeDelta_filter_progress (O : Oracles) (f b : String) (sr : Nat)
    (stem : String) (p : Arr) (evts : List Event) :
    (writeDelta O f b sr stem p evts).events.filter Event.isProgress =
      evts.filter Event.isProgress := by
  unfold writeDelta
  split
  · split <;> simp [Event.isProgress]
  · simp [Event.isProgress]

/-- The try body emits no progress events. -/
theorem stemBody_filter_progress (O : Oracles) (f b : String) (sr : Nat)
    (stem : String) (a : Arr) :
    (stemBody O f b sr stem a).events.filter Event.isProgress = [] := by
  unfold stemBody
  split
  · split
    · split
      · simp [Event.isProgress]
      · rw [writeDelta_filter_progress]; simp [Event.isProgress]
    · rw [writeDelta_filter_progress]; simp
  · rw [writeDelta_filter_progress]; simp

/-- One loop iteration reports progress (i + 1) / 5 exactly when the stem
is present and its buffer non-empty. -/
theorem stemStepApp_filter_progress (O : Oracles) (f b : String) (sr : Nat)
    (pred : String → Option Arr) (i : Nat) (stem : String) :
    (stemStepApp O f b sr pred i stem).events.filter Event.isProgress =
      if presentValid pred stem then [.progress (i + 1) 5] else [] := by
  unfold stemStepApp presentValid
  cases hp : pred stem with
  | none => simp [Event.isProgress]
  | some a =>
    by_cases hsz : a.size = 0
    · simp [hsz, Event.isProgress]
    · simp [hsz, List.filter_append, stemBody_filter_progress, Event.isProgress]

/-- Every file written by the writer step carries the stem path, the
session sample rate and the PCM_16 subtype, and is paired in the result. -/
theorem writeDelta_sound (O : Oracles) (f b : String) (sr : Nat) (stem : String)
    (p : Arr) (evts : List Event) :
    ∀ q ∈ (writeDelta O f b sr stem p evts).result,
      q.1 = stem ∧ q.2 = mkPath f b stem ∧
      ∃ w ∈ (writeDelta O f b sr stem p evts).files,
        w.path = mkPath f b stem ∧ w.sr = sr ∧ w.subtype = "PCM_16" ∧
        w.data = p := by
  intro q hq
  unfold writeDelta at hq ⊢
  split at hq
  · split at hq
    · simp only [List.mem_singleton] at hq
      subst hq
      refine ⟨rfl, rfl, ⟨mkPath f b stem, p, sr, "PCM_16"⟩, ?_⟩
      simp_all
    · simp at hq
  · simp at hq

theorem writeDelta_files_path (O : Oracles) (f b : String) (sr : Nat)
    (stem : String) (p : Arr) (evts : List Event) :
    ∀ w ∈ (writeDelta O f b sr stem p evts).files,
      w.path = mkPath f b stem ∧ w.data = p := by
  intro w hw
  unfold writeDelta at hw
  split at hw
  · split at hw
    · simp only [List.mem_singleton] at hw; subst hw; exact ⟨rfl, rfl⟩
    · simp at hw
  · simp at hw

/-- The try body is either a caught denoiser failure or a writer step on
an at-most-1-dimensional (mono) buffer. -/
theorem stemBody_shape (O : Oracles) (f b : String) (sr : Nat) (stem : String)
    (a : Arr) (hs : a.size ≠ 0) :
    stemBody O f b sr stem a = ⟨[], [.errorStem stem], []⟩ ∨
    ∃ p evts, stemBody O f b sr stem a = writeDelta O f b sr stem p evts ∧
      p.ndim ≤ 1 := by
  unfold stemBody
  split
  · next hster =>
    split
    · rcases hdn : O.reduceNoise a.meanAxis1.toList sr false (6/10) none none
        with _ | y
      · exact Or.inl rfl
      · exact Or.inr ⟨.a1 y, _, rfl, by simp [Arr.ndim]⟩
    · refine Or.inr ⟨a.meanAxis1, [], rfl, ?_⟩
      rcases a with x | xs | ⟨c, rows⟩
      · exact absurd hster.1 (by simp [Arr.ndim])
      · exact absurd hster.1 (by simp [Arr.ndim])
      · simp [Arr.meanAxis1, Arr.ndim]
  · next hster =>
    exact Or.inr ⟨a.squeeze, [], rfl, Arr.squeeze_ndim_le a hs hster⟩

/-- Data written by the try body is at most 1-dimensional (mono). -/
theorem stemBody_sound (O : Oracles) (f b : String) (sr : Nat) (stem : String)
    (a : Arr) (hs : a.size ≠ 0) :
    ∀ q ∈ (stemBody O f b sr stem a).result,
      q.1 = stem ∧ q.2 = mkPath f b stem ∧
      ∃ w ∈ (stemBody O f b sr stem a).files,
        w.path = mkPath f b stem ∧ w.sr = sr ∧ w.subtype = "PCM_16" ∧
        w.data.ndim ≤ 1 := by
  intro q hq
  rcases stemBody_shape O f b sr stem a hs with hsh | ⟨p, evts, hsh, hnd⟩
  · rw [hsh] at hq; simp at hq
  · rw [hsh] at hq ⊢
    obtain ⟨h1, h2, w, hw, hp, hsr, hst, hdata⟩ :=
      writeDelta_sound _ _ _ _ _ _ _ q hq
    exact ⟨h1, h2, w, hw, hp, hsr, hst, hdata ▸ hnd⟩

theorem stemBody_files_path (O : Oracles) (f b : String) (sr : Nat)
    (stem : String) (a : Arr) (hs : a.size ≠ 0) :
    ∀ w ∈ (stemBody O f b sr stem a).files, w.path = mkPath f b stem := by
  intro w hw
  rcases stemBody_shape O f b sr stem a hs with hsh | ⟨p, evts, hsh, hnd⟩
  · rw [hsh] at hw; simp at hw
  · rw [hsh] at hw
    exact (writeDelta_files_path _ _ _ _ _ _ _ w hw).1

/-- One loop iteration is a skip (missing or invalid stem) or the try
body followed by the progress update. -/
theorem stemStepApp_shape (O : Oracles) (f b : String) (sr : Nat)
    (pred : String → Option Arr) (i : Nat) (stem : String) :
    stemStepApp O f b sr pred i stem = ⟨[], [.warnMissing stem], []⟩ ∨
    stemStepApp O f b sr pred i stem = ⟨[], [.warnInvalid stem], []⟩ ∨
    ∃ a, pred stem = some a ∧ a.size ≠ 0 ∧
      stemStepApp O f b sr pred i stem =
        ⟨(stemBody O f b sr stem a).files,
         (stemBody O f b sr stem a).events ++ [.progress (i + 1) 5],
         (stemBody O f b sr stem a).result⟩ := by
  unfold stemStepApp
  split
  · exact Or.inl rfl
  · split
    · exact Or.inr (Or.inl rfl)
    · rename_i a heq hsz
      exact Or.inr (Or.inr ⟨a, heq, hsz, rfl⟩)

/-- Per-iteration soundness: every result entry of one iteration is keyed
by its stem, holds the stem path, and is backed by a written mono
PCM_16 file at the session sample rate. -/
theorem stemStepApp_sound (O : Oracles) (f b : String) (sr : Nat)
    (pred : String → Option Arr) (i : Nat) (stem : String) :
    ∀ q ∈ (stemStepApp O f b sr pred i stem).result,
      q.1 = stem ∧ q.2 = mkPath f b stem ∧
      ∃ w ∈ (stemStepApp O f b sr pred i stem).files,
        w.path = mkPath f b stem ∧ w.sr = sr ∧ w.subtype = "PCM_16" ∧
        w.data.ndim ≤ 1 := by
  intro q hq
  rcases stemStepApp_shape O f b sr pred i stem with hsh | hsh | ⟨a, hp, hsz, hsh⟩
  · rw [hsh] at hq; simp at hq
  · rw [hsh] at hq; simp at hq
  · rw [hsh] at hq ⊢
    exact stemBody_sound O f b sr stem a hsz q hq

theorem stemStepApp_files_path (O : Oracles) (f b : String) (sr : Nat)
    (pred : String → Option Arr) (i : Nat) (stem : String) :
    ∀ w ∈ (stemStepApp O f b sr pred i stem).files,
      w.path = mkPath f b stem := by
  intro w hw
  rcases stemStepApp_shape O f b sr pred i stem with hsh | hsh | ⟨a, hp, hsz, hsh⟩
  · rw [hsh] at hw; simp at hw
  · rw [hsh] at hw; simp at hw
  · rw [hsh] at hw
    exact stemBody_files_path O f b sr stem a hsz w hw

theorem englishWrite_ok_keys (O : Oracles) (f b : String) (sr : Nat)
    (stem : String) (p : Arr) (evts : List Event) (d : StemDelta)
    (h : englishWrite O f b sr stem p evts = .ok d) :
    ∀ q ∈ d.result, q.1 = stem := by
  unfold englishWrite at h
  split at h
  · cases h
    intro q hq
    simp only [List.mem_singleton] at hq
    subst hq
    rfl
  · cases h

theorem englishStemStep_ok_keys (O : Oracles) (f b : String) (sr : Nat)
    (pred : String → Option Arr) (stem : String) (d : StemDelta)
    (h : englishStemStep O f b sr pred stem = .ok d) :
    ∀ q ∈ d.result, q.1 = stem := by
  unfold englishStemStep at h
  split at h
  · cases h; intro q hq; simp at hq
  · split at h
    · split at h
      · split at h
        · cases h
        · exact englishWrite_ok_keys _ _ _ _ _ _ _ _ h
      · exact englishWrite_ok_keys _ _ _ _ _ _ _ _ h
    · exact englishWrite_ok_keys _ _ _ _ _ _ _ _ h

/-- Keys produced by the English extraction loop come from the stems it
was asked to process (or from the accumulator it started with). -/
theorem englishExtractGo_keys (O : Oracles) (f b : String) (sr : Nat)
    (pred : String → Option Arr) :
    ∀ (stems : List String) (st : ExtractResult) (s : String),
      s ∈ (englishExtractGo O f b sr pred stems st).result.map Prod.fst →
      s ∈ st.result.map Prod.fst ∨ s ∈ stems := by
  intro stems
  induction stems with
  | nil =>
    intro st s h
    exact Or.inl (by simpa [englishExtractGo] using h)
  | cons stem rest ih =>
    intro st s h
    rw [englishExtractGo] at h
    cases hstep : englishStemStep O f b sr pred stem with
    | error e => rw [hstep] at h; simp at h
    | ok d =>
      rw [hstep] at h
      rcases ih _ s h with hin | hin
      · simp only [appendDelta, List.map_append, List.mem_append] at hin
        rcases hin with h1 | h1
        · exact Or.inl h1
        · obtain ⟨q, hq, hqs⟩ := List.mem_map.mp h1
          have hk := englishStemStep_ok_keys O f b sr pred stem d hstep q hq
          right
          rw [← hqs, hk]
          exact List.mem_cons_self _ _
      · exact Or.inr (List.mem_cons_of_mem _ hin)

/-- C1: on every exit path of process_file the input temp file is deleted.
The claim holds in src/app.py (second conjunct: for all oracles, loader
and separator outcomes, the temporary input no longer exists when
process_file returns), but src/pages/English.py violates it: at a
concrete decode failure (audio_loader.load raises) its process_file
returns an empty mapping while the NamedTemporaryFile, created with
delete false and never unlinked on this path, still exists (first
conjunct).  The spec states the invariant and app.py implements it, so
the English.py behaviour is a code bug. -/
theorem english_decode_failure_leaks_tempfile :
    ((process_file_english oracleOk true none (fun _ => none)
        "out" "tmpw8ps12cd" "song.mp3").result = [] ∧
     (process_file_english oracleOk true none (fun _ => none)
        "out" "tmpw8ps12cd" "song.mp3").tmpExists = true) ∧
    ∀ (O : Oracles) (tw : Bool) (load : Option (Arr × Nat))
      (sep : Arr → Option (String → Option Arr)) (folder fn : String),
      (process_file_app O tw load sep folder fn).tmpExists = false := by
  refine ⟨⟨rfl, rfl⟩, ?_⟩
  intro O tw load sep folder fn
  unfold process_file_app
  split
  · rfl
  · cases load with
    | none => rfl
    | some p =>
      obtain ⟨w, sr⟩ := p
      cases hsw : sep w <;> simp [hsw]

/-- C10 counterexample: process_file can return an empty dictionary on a
run with no fatal-for-file error at all (loading and separation both
succeed, but the separator prediction is empty, so post-processing
produces zero artifacts).  This falsifies the claimed equivalence
between an empty result and a fatal abort. -/
theorem empty_result_without_fatal_error :
    (process_file_app oracleOk true (some (.a2 2 [[1, 1]], 44100))
        (fun _ => some (fun _ => none)) "out" "song.mp3").result = [] ∧
    ∀ e ∈ (process_file_app oracleOk true (some (.a2 2 [[1, 1]], 44100))
        (fun _ => some (fun _ => none)) "out" "song.mp3").events,
      e.isFatal = false := by
  exact ⟨rfl, by decide⟩

/-- C10 amended: process_file of src/app.py is total (every modelled
failure is caught, nothing escapes to the caller) and its result is
characterized by: each fatal path (temp-write failure, decode failure,
separation failure) yields an empty dictionary together with its fatal
error event, and on the success path the result is exactly what
extract_stems returned, which may itself be empty. -/
theorem processFile_total_characterization
    (O : Oracles) (tw : Bool) (load : Option (Arr × Nat))
    (sep : Arr → Option (String → Option Arr)) (folder fn : String) :
    (tw = false →
      (process_file_app O tw load sep folder fn).result = [] ∧
      Event.errorUnexpected ∈ (process_file_app O tw load sep folder fn).events) ∧
    (tw = true → load = none →
      (process_file_app O tw load sep folder fn).result = [] ∧
      Event.errorLoad ∈ (process_file_app O tw load sep folder fn).events) ∧
    (∀ w sr, tw = true → load = some (w, sr) → sep w = none →
      (process_file_app O tw load sep folder fn).result = [] ∧
      Event.errorSeparate ∈ (process_file_app O tw load sep folder fn).events) ∧
    (∀ w sr pr, tw = true → load = some (w, sr) → sep w = some pr →
      (process_file_app O tw load sep folder fn).result =
        (extract_stems_app O folder (pathStem fn) pr sr).result) := by
  refine ⟨?_, ?_, ?_, ?_⟩
  · intro h
    subst h
    unfold process_file_app
    simp
  · intro ht hl
    subst ht; subst hl
    unfold process_file_app
    simp
  · intro w sr ht hl hs
    subst ht; subst hl
    unfold process_file_app
    simp [hs]
  · intro w sr pr ht hl hs
    subst ht; subst hl
    unfold process_file_app
    simp [hs]

/-- C10 witness: the characterization applied to a concrete successful
run with an empty prediction. -/
theorem processFile_total_characterization_witness :
    (process_file_app oracleOk true (some (.a2 2 [[1, 1]], 44100))
        (fun _ => some (fun _ => none)) "out" "song.mp3").result =
      (extract_stems_app oracleOk "out" (pathStem "song.mp3")
        (fun _ => none) 44100).result :=
  (processFile_total_characterization oracleOk true (some (.a2 2 [[1, 1]], 44100))
      (fun _ => some (fun _ => none)) "out" "song.mp3").2.2.2
    (.a2 2 [[1, 1]]) 44100 (fun _ => none) rfl rfl rfl

/-- C6: for every prediction and every oracle behaviour, the keys of the
mapping returned by extract_stems are a subset of the closed stem set
vocals, drums, bass, piano, other; this holds for the src/app.py
variant (first conjunct) and the src/pages/English.py variant (second
conjunct). -/
theorem result_keys_subset_of_stems
    (O : Oracles) (folder base : String) (pred : String → Option Arr)
    (sr : Nat) (s : String) :
    (s ∈ (extract_stems_app O folder base pred sr).result.map Prod.fst →
      s ∈ stemsToProcess) ∧
    (s ∈ (extract_stems_english O folder base pred sr).result.map Prod.fst →
      s ∈ stemsToProcess) := by
  constructor
  · intro h
    rw [extract_app_result] at h
    simp only [List.map_append, List.mem_append] at h
    rcases h with h | h | h | h | h <;>
      (obtain ⟨q, hq, hqs⟩ := List.mem_map.mp h;
       obtain ⟨h1, -⟩ := stemStepApp_sound _ _ _ _ _ _ _ q hq;
       rw [← hqs, h1];
       simp [stemsToProcess])
  · intro h
    unfold extract_stems_english at h
    rcases englishExtractGo_keys O folder base sr pred stemsToProcess
        ⟨[], [], []⟩ s h with h1 | h1
    · simp at h1
    · exact h1

/-- C6 witness: concrete runs of both variants producing a key. -/
theorem result_keys_subset_of_stems_witness :
    "vocals" ∈ stemsToProcess ∧ "drums" ∈ stemsToProcess :=
  ⟨(result_keys_subset_of_stems oracleOk "out" "b"
      (fun s => if s = "vocals" then some (.a1 [1, 2]) else none)
      44100 "vocals").1 (by decide),
   (result_keys_subset_of_stems oracleOk "out" "b"
      (fun s => if s = "drums" then some (.a2 2 [[1, 1]]) else none)
      44100 "drums").2 (by decide)⟩

/-- C9 counterexample: with an empty prediction every stem is skipped via
continue, so no progress update at all is reported; in particular the
fraction 1 (progress 5 of 5) is never reported after the last stem,
contradicting the claim that the fraction is reported for every stem,
including skipped ones. -/
theorem skipped_stems_emit_no_progress :
    (extract_stems_app oracleOk "out" "song"
        (fun _ => none) 44100).events.filter Event.isProgress = [] ∧
    Event.progress 5 5 ∉
      (extract_stems_app oracleOk "out" "song" (fun _ => none) 44100).events := by
  decide

/-- C9 amended: the progress fraction (i + 1) / 5 is reported exactly for
the stems that pass the presence and validity checks (stems skipped by
continue report nothing, so the final fraction reaches 1 only when the
fifth stem is present and valid). -/
theorem progress_events_characterization (O : Oracles) (folder base : String)
    (pred : String → Option Arr) (sr : Nat) :
    (extract_stems_app O folder base pred sr).events.filter Event.isProgress =
      (stemsToProcess.enum.filter (fun p => presentValid pred p.2)).map
        (fun p => Event.progress (p.1 + 1) 5) := by
  rw [extract_app_events]
  simp only [List.filter_append, stemStepApp_filter_progress]
  by_cases h1 : presentValid pred "vocals" = true <;>
  by_cases h2 : presentValid pred "drums" = true <;>
  by_cases h3 : presentValid pred "bass" = true <;>
  by_cases h4 : presentValid pred "piano" = true <;>
  by_cases h5 : presentValid pred "other" = true <;>
    simp [stemsToProcess, List.enum, List.enumFrom, h1, h2, h3, h4, h5]

/-- C3: in a run where the vocals entry is stereo and the drums entry is
stereo, the written vocals artifact is the denoised (stationary false,
prop_decrease 0.6) channel average, the denoise event for vocals is
reported, the written drums artifact is exactly the channel average, and
no denoising is ever applied to drums. -/
theorem stereo_vocals_denoised_drums_not
    (O : Oracles) (folder base : String) (pred : String → Option Arr) (sr : Nat)
    (cv : Nat) (rv : List (List ℚ)) (cd : Nat) (rd : List (List ℚ)) (y : List ℚ)
    (hv : pred "vocals" = some (.a2 cv rv)) (hcv : 1 < cv) (hrv : rv ≠ [])
    (hd : pred "drums" = some (.a2 cd rd)) (hcd : 1 < cd) (hrd : rd ≠ [])
    (hden : O.reduceNoise (Arr.a2 cv rv).meanAxis1.toList sr false (6/10)
      none none = some y)
    (hy : y ≠ [])
    (hwv : O.sfWrite (mkPath folder base "vocals") (.a1 y) sr = true)
    (hwd : O.sfWrite (mkPath folder base "drums")
      ((Arr.a2 cd rd).meanAxis1) sr = true) :
    (⟨mkPath folder base "vocals", .a1 y, sr, "PCM_16"⟩ : WavFile) ∈
      (extract_stems_app O folder base pred sr).files ∧
    Event.denoiseApplied "vocals" false (6/10) ∈
      (extract_stems_app O folder base pred sr).events ∧
    (⟨mkPath folder base "drums", (Arr.a2 cd rd).meanAxis1, sr, "PCM_16"⟩ : WavFile) ∈
      (extract_stems_app O folder base pred sr).files ∧
    ∀ st q, Event.denoiseApplied "drums" st q ∉
      (extract_stems_app O folder base pred sr).events := by
  have hszv : (Arr.a2 cv rv).size ≠ 0 := by
    simp only [Arr.size]
    exact Nat.mul_ne_zero (by simpa using hrv) (by omega)
  have hszd : (Arr.a2 cd rd).size ≠ 0 := by
    simp only [Arr.size]
    exact Nat.mul_ne_zero (by simpa using hrd) (by omega)
  have hyd : 0 < (Arr.a1 y).size := by
    simp only [Arr.size]
    exact List.length_pos.mpr hy
  have hmd : 0 < ((Arr.a2 cd rd).meanAxis1).size := by
    simp only [Arr.meanAxis1, Arr.size, List.length_map]
    exact List.length_pos.mpr hrd
  have hvd : stemStepApp O folder base sr pred 0 "vocals" =
      ⟨[⟨mkPath folder base "vocals", .a1 y, sr, "PCM_16"⟩],
       [.denoiseApplied "vocals" false (6/10), .progress 1 5],
       [("vocals", mkPath folder base "vocals")]⟩ := by
    unfold stemStepApp stemBody writeDelta
    simp [hv, hszv, Arr.ndim, Arr.shape1, hcv, hden, hyd, hwv]
  have hdd : stemStepApp O folder base sr pred 1 "drums" =
      ⟨[⟨mkPath folder base "drums", (Arr.a2 cd rd).meanAxis1, sr, "PCM_16"⟩],
       [.progress 2 5],
       [("drums", mkPath folder base "drums")]⟩ := by
    unfold stemStepApp stemBody writeDelta
    simp [hd, hszd, Arr.ndim, Arr.shape1, hcd, hmd, hwd]
  refine ⟨?_, ?_, ?_, ?_⟩
  · rw [extract_app_files, hvd]
    simp
  · rw [extract_app_events, hvd]
    simp
  · rw [extract_app_files, hdd]
    simp
  · intro st q hmem
    rw [extract_app_events] at hmem
    simp only [List.mem_append] at hmem
    rcases hmem with h | h | h | h | h
    · rw [hvd] at h
      simp at h
    · rw [hdd] at h
      simp at h
    · have := stemStepApp_stemOf O folder base sr pred 2 "bass" _ h
      simp [Event.stemOf] at this
    · have := stemStepApp_stemOf O folder base sr pred 3 "piano" _ h
      simp [Event.stemOf] at this
    · have := stemStepApp_stemOf O folder base sr pred 4 "other" _ h
      simp [Event.stemOf] at this

/-- C3 witness: concrete stereo vocals [[1, 3]] and drums [[2, 4]] with a
denoiser that returns its input. -/
theorem stereo_vocals_denoised_drums_not_witness :
    (⟨mkPath "out" "b" "vocals", .a1 ((Arr.a2 2 [[1, 3]]).meanAxis1.toList),
        44100, "PCM_16"⟩ : WavFile) ∈
      (extract_stems_app oracleOk "out" "b" predStereoVD 44100).files ∧
    Event.denoiseApplied "vocals" false (6/10) ∈
      (extract_stems_app oracleOk "out" "b" predStereoVD 44100).events ∧
    (⟨mkPath "out" "b" "drums", (Arr.a2 2 [[2, 4]]).meanAxis1, 44100,
        "PCM_16"⟩ : WavFile) ∈
      (extract_stems_app oracleOk "out" "b" predStereoVD 44100).files ∧
    ∀ st q, Event.denoiseApplied "drums" st q ∉
      (extract_stems_app oracleOk "out" "b" predStereoVD 44100).events :=
  stereo_vocals_denoised_drums_not oracleOk "out" "b" predStereoVD 44100
    2 [[1, 3]] 2 [[2, 4]] ((Arr.a2 2 [[1, 3]]).meanAxis1.toList)
    rfl (by decide) (by decide)
    rfl (by decide) (by decide) rfl
    (by simp [Arr.meanAxis1, Arr.toList]) rfl rfl

/-- Every entry of the extract_stems result of src/app.py holds the path
built from the base name and its stem, backed by a written mono PCM_16
file at the session sample rate. -/
theorem extract_app_sound (O : Oracles) (folder base : String)
    (pred : String → Option Arr) (sr : Nat) :
    ∀ q ∈ (extract_stems_app O folder base pred sr).result,
      q.2 = mkPath folder base q.1 ∧
      ∃ w ∈ (extract_stems_app O folder base pred sr).files,
        w.path = q.2 ∧ w.sr = sr ∧ w.subtype = "PCM_16" ∧
        w.data.ndim ≤ 1 := by
  intro q hq
  rw [extract_app_result] at hq
  rw [extract_app_files]
  simp only [List.mem_append] at hq
  rcases hq with h | h | h | h | h <;>
    · obtain ⟨h1, h2, w, hw, hp, hsr, hst, hnd⟩ :=
        stemStepApp_sound _ _ _ _ _ _ _ q h
      refine ⟨by rw [h2, h1], w, ?_, by rw [hp, h2], hsr, hst, hnd⟩
      simp [List.mem_append, hw]

/-- C5 amended (app side): in src/app.py, for every successfully
processed stem the mapping returned by process_file pairs the stem with
the path folder / base _ stem .wav where the base is the original
filename without its extension, and a file with exactly that path, the
session sample rate, subtype PCM_16 and mono (at most 1-d) data was
written. -/
theorem app_artifact_naming_and_format (O : Oracles) (tw : Bool)
    (load : Option (Arr × Nat)) (sep : Arr → Option (String → Option Arr))
    (folder fn : String) (wv : Arr) (sr : Nat) (pr : String → Option Arr)
    (stem path : String)
    (htw : tw = true) (hl : load = some (wv, sr)) (hs : sep wv = some pr)
    (hmem : (stem, path) ∈ (process_file_app O tw load sep folder fn).result) :
    path = mkPath folder (pathStem fn) stem ∧
    ∃ w ∈ (process_file_app O tw load sep folder fn).files,
      w.path = path ∧ w.sr = sr ∧ w.subtype = "PCM_16" ∧
      w.data.ndim ≤ 1 := by
  subst htw; subst hl
  have heq : process_file_app O true (some (wv, sr)) sep folder fn =
      ⟨(extract_stems_app O folder (pathStem fn) pr sr).result,
       (extract_stems_app O folder (pathStem fn) pr sr).files,
       (extract_stems_app O folder (pathStem fn) pr sr).events, false⟩ := by
    unfold process_file_app
    simp [hs]
  rw [heq] at hmem ⊢
  obtain ⟨h2, w, hw, hp, hsr, hst, hnd⟩ :=
    extract_app_sound O folder (pathStem fn) pr sr (stem, path) hmem
  exact ⟨h2, w, hw, hp, hsr, hst, hnd⟩

/-- C5 witness: a concrete run of app.py process_file on song.mp3. -/
theorem app_artifact_naming_and_format_witness :
    "out/song_vocals.wav" = mkPath "out" (pathStem "song.mp3") "vocals" ∧
    ∃ w ∈ (process_file_app oracleOk true (some (.a2 2 [[1, 3]], 44100))
        (fun _ => some predStereoVD) "out" "song.mp3").files,
      w.path = "out/song_vocals.wav" ∧ w.sr = 44100 ∧
      w.subtype = "PCM_16" ∧ w.data.ndim ≤ 1 :=
  app_artifact_naming_and_format oracleOk true (some (.a2 2 [[1, 3]], 44100))
    (fun _ => some predStereoVD) "out" "song.mp3" (.a2 2 [[1, 3]]) 44100
    predStereoVD "vocals" "out/song_vocals.wav" rfl rfl rfl (by decide)

/-- C5 counterexample: in src/pages/English.py the artifact base name is
the random basename of the temporary input file, not the original
filename without extension: processing song.mp3 through a temp file
named tmpw8ps12cd.mp3 returns vocals at out/tmpw8ps12cd_vocals.wav and
no entry at all holds the claimed path out/song_vocals.wav. -/
theorem english_artifact_uses_temp_basename :
    ("vocals", "out/tmpw8ps12cd_vocals.wav") ∈
      (process_file_english oracleOk true (some (.a1 [1, 2], 44100))
        (fun _ => some (fun s => if s = "vocals" then some (.a1 [1, 2]) else none))
        "out" "tmpw8ps12cd" "song.mp3").result ∧
    ∀ q ∈ (process_file_english oracleOk true (some (.a1 [1, 2], 44100))
        (fun _ => some (fun s => if s = "vocals" then some (.a1 [1, 2]) else none))
        "out" "tmpw8ps12cd" "song.mp3").result,
      q.2 ≠ "out/song_vocals.wav" := by
  decide

/-- C4: when the piano key is absent (or present but empty) and the four
remaining stems are present and valid, extract_stems emits exactly one
non-fatal warning for piano, produces artifacts for the four remaining
stems (result keys are vocals, drums, bass, other and four files are
written), and does not fail overall. -/
theorem missing_piano_skipped_with_warning
    (O : Oracles) (folder base : String) (pred : String → Option Arr) (sr : Nat)
    (cv : Nat) (rv : List (List ℚ)) (cd : Nat) (rd : List (List ℚ))
    (cb : Nat) (rb : List (List ℚ)) (co : Nat) (ro : List (List ℚ)) (y : List ℚ)
    (hv : pred "vocals" = some (.a2 cv rv)) (hcv : 1 < cv) (hrv : rv ≠ [])
    (hd : pred "drums" = some (.a2 cd rd)) (hcd : 1 < cd) (hrd : rd ≠ [])
    (hb : pred "bass" = some (.a2 cb rb)) (hcb : 1 < cb) (hrb : rb ≠ [])
    (ho : pred "other" = some (.a2 co ro)) (hco : 1 < co) (hro : ro ≠ [])
    (hp : pred "piano" = none ∨ ∃ e, pred "piano" = some e ∧ e.size = 0)
    (hden : O.reduceNoise (Arr.a2 cv rv).meanAxis1.toList sr false (6/10)
      none none = some y)
    (hy : y ≠ [])
    (hw : ∀ p a s, O.sfWrite p a s = true) :
    (extract_stems_app O folder base pred sr).result.map Prod.fst =
      ["vocals", "drums", "bass", "other"] ∧
    ((extract_stems_app O folder base pred sr).events.count
        (.warnMissing "piano") +
     (extract_stems_app O folder base pred sr).events.count
        (.warnInvalid "piano")) = 1 ∧
    (extract_stems_app O folder base pred sr).files.length = 4 := by
  have hszv : (Arr.a2 cv rv).size ≠ 0 := by
    simp only [Arr.size]
    exact Nat.mul_ne_zero (by simpa using hrv) (by omega)
  have hszd : (Arr.a2 cd rd).size ≠ 0 := by
    simp only [Arr.size]
    exact Nat.mul_ne_zero (by simpa using hrd) (by omega)
  have hszb : (Arr.a2 cb rb).size ≠ 0 := by
    simp only [Arr.size]
    exact Nat.mul_ne_zero (by simpa using hrb) (by omega)
  have hszo : (Arr.a2 co ro).size ≠ 0 := by
    simp only [Arr.size]
    exact Nat.mul_ne_zero (by simpa using hro) (by omega)
  have hyd : 0 < (Arr.a1 y).size := by
    simp only [Arr.size]
    exact List.length_pos.mpr hy
  have hmd : 0 < ((Arr.a2 cd rd).meanAxis1).size := by
    simp only [Arr.meanAxis1, Arr.size, List.length_map]
    exact List.length_pos.mpr hrd
  have hmb : 0 < ((Arr.a2 cb rb).meanAxis1).size := by
    simp only [Arr.meanAxis1, Arr.size, List.length_map]
    exact List.length_pos.mpr hrb
  have hmo : 0 < ((Arr.a2 co ro).meanAxis1).size := by
    simp only [Arr.meanAxis1, Arr.size, List.length_map]
    exact List.length_pos.mpr hro
  have hvd : stemStepApp O folder base sr pred 0 "vocals" =
      ⟨[⟨mkPath folder base "vocals", .a1 y, sr, "PCM_16"⟩],
       [.denoiseApplied "vocals" false (6/10), .progress 1 5],
       [("vocals", mkPath folder base "vocals")]⟩ := by
    unfold stemStepApp stemBody writeDelta
    simp [hv, hszv, Arr.ndim, Arr.shape1, hcv, hden, hyd, hw]
  have hdd : stemStepApp O folder base sr pred 1 "drums" =
      ⟨[⟨mkPath folder base "drums", (Arr.a2 cd rd).meanAxis1, sr, "PCM_16"⟩],
       [.progress 2 5],
       [("drums", mkPath folder base "drums")]⟩ := by
    unfold stemStepApp stemBody writeDelta
    simp [hd, hszd, Arr.ndim, Arr.shape1, hcd, hmd, hw]
  have hbd : stemStepApp O folder base sr pred 2 "bass" =
      ⟨[⟨mkPath folder base "bass", (Arr.a2 cb rb).meanAxis1, sr, "PCM_16"⟩],
       [.progress 3 5],
       [("bass", mkPath folder base "bass")]⟩ := by
    unfold stemStepApp stemBody writeDelta
    simp [hb, hszb, Arr.ndim, Arr.shape1, hcb, hmb, hw]
  have hod : stemStepApp O folder base sr pred 4 "other" =
      ⟨[⟨mkPath folder base "other", (Arr.a2 co ro).meanAxis1, sr, "PCM_16"⟩],
       [.progress 5 5],
       [("other", mkPath folder base "other")]⟩ := by
    unfold stemStepApp stemBody writeDelta
    simp [ho, hszo, Arr.ndim, Arr.shape1, hco, hmo, hw]
  rcases hp with hpn | ⟨e, hpe, hesz⟩
  · have hpd : stemStepApp O folder base sr pred 3 "piano" =
        ⟨[], [.warnMissing "piano"], []⟩ := by
      unfold stemStepApp
      simp [hpn]
    refine ⟨?_, ?_, ?_⟩
    · rw [extract_app_result, hvd, hdd, hbd, hpd, hod]; simp
    · rw [extract_app_events, hvd, hdd, hbd, hpd, hod]
      dsimp only
      decide
    · rw [extract_app_files, hvd, hdd, hbd, hpd, hod]; simp
  · have hpd : stemStepApp O folder base sr pred 3 "piano" =
        ⟨[], [.warnInvalid "piano"], []⟩ := by
      unfold stemStepApp
      simp [hpe, hesz]
    refine ⟨?_, ?_, ?_⟩
    · rw [extract_app_result, hvd, hdd, hbd, hpd, hod]; simp
    · rw [extract_app_events, hvd, hdd, hbd, hpd, hod]
      dsimp only
      decide
    · rw [extract_app_files, hvd, hdd, hbd, hpd, hod]; simp

/-- C4 witness: a concrete prediction with four stereo stems and no
piano entry. -/
theorem missing_piano_skipped_with_warning_witness :
    (extract_stems_app oracleOk "out" "b" predNoPiano 44100).result.map
        Prod.fst = ["vocals", "drums", "bass", "other"] ∧
    ((extract_stems_app oracleOk "out" "b" predNoPiano 44100).events.count
        (.warnMissing "piano") +
     (extract_stems_app oracleOk "out" "b" predNoPiano 44100).events.count
        (.warnInvalid "piano")) = 1 ∧
    (extract_stems_app oracleOk "out" "b" predNoPiano 44100).files.length = 4 :=
  missing_piano_skipped_with_warning oracleOk "out" "b" predNoPiano 44100
    2 [[1, 3]] 2 [[1, 3]] 2 [[1, 3]] 2 [[1, 3]]
    ((Arr.a2 2 [[1, 3]]).meanAxis1.toList)
    rfl (by decide) (by decide)
    rfl (by decide) (by decide)
    rfl (by decide) (by decide)
    rfl (by decide) (by decide)
    (Or.inl rfl) rfl
    (by simp [Arr.meanAxis1, Arr.toList])
    (fun _ _ _ => rfl)

/-- With an empty starting event list the writer step can only emit the
per-stem error or the empty-buffer warning. -/
theorem writeDelta_events_nil (O : Oracles) (f b : String) (sr : Nat)
    (stem : String) (p : Arr) :
    ∀ e ∈ (writeDelta O f b sr stem p []).events,
      e = .errorStem stem ∨ e = .warnEmpty stem := by
  intro e he
  unfold writeDelta at he
  split at he
  · split at he
    · simp at he
    · simp at he
      exact Or.inl he
  · simp at he
    exact Or.inr he

/-- A present, non-empty buffer that fails the stereo test takes the
already-mono branch: squeeze and write, without denoising. -/
theorem stemStepApp_mono_case (O : Oracles) (f b : String) (sr : Nat)
    (pred : String → Option Arr) (i : Nat) (stem : String) (a : Arr)
    (ha : pred stem = some a) (hs : a.size ≠ 0)
    (hster : ¬(a.ndim = 2 ∧ 1 < a.shape1)) :
    stemStepApp O f b sr pred i stem =
      ⟨(writeDelta O f b sr stem a.squeeze []).files,
       (writeDelta O f b sr stem a.squeeze []).events ++ [.progress (i + 1) 5],
       (writeDelta O f b sr stem a.squeeze []).result⟩ := by
  unfold stemStepApp stemBody
  simp [ha, hs, hster]

/-- C7: a stem whose prediction buffer is already single channel is used
as is: no denoise event tagged with this stem is ever emitted (even for
vocals), and any artifact written at this stem's path carries exactly
the original sample sequence. -/
theorem mono_stem_used_as_is_no_denoise
    (O : Oracles) (folder base : String) (pred : String → Option Arr)
    (sr : Nat) (stem : String) (a : Arr)
    (ha : pred stem = some a) (hwf : a.wf = true)
    (hsc : a.singleChannel = true) (hs : a.size ≠ 0) :
    (∀ st q, Event.denoiseApplied stem st q ∉
        (extract_stems_app O folder base pred sr).events) ∧
    (∀ w ∈ (extract_stems_app O folder base pred sr).files,
      w.path = mkPath folder base stem → w.data.toList = a.toList) := by
  have hster : ¬(a.ndim = 2 ∧ 1 < a.shape1) := by
    rcases a with x | xs | ⟨c, rows⟩
    · simp [Arr.singleChannel] at hsc
    · simp [Arr.ndim]
    · simp only [Arr.singleChannel] at hsc
      have hc : c = 1 := by simpa using hsc
      subst hc
      simp [Arr.shape1]
  constructor
  · intro st q hmem
    rw [extract_app_events] at hmem
    simp only [List.mem_append] at hmem
    rcases hmem with h | h | h | h | h <;>
      · have htag := stemStepApp_stemOf _ _ _ _ _ _ _ _ h
        simp only [Event.stemOf] at htag
        rcases htag with htag | htag
        · exact absurd htag (by simp)
        · obtain rfl := Option.some.inj htag
          rw [stemStepApp_mono_case O folder base sr pred _ _ a ha hs hster] at h
          simp only [List.mem_append, List.mem_singleton] at h
          rcases h with h | h
          · rcases writeDelta_events_nil _ _ _ _ _ _ _ h with h1 | h1 <;>
              simp at h1
          · simp at h
  · intro w hw hpath
    rw [extract_app_files] at hw
    simp only [List.mem_append] at hw
    rcases hw with h | h | h | h | h <;>
      · have hpw := stemStepApp_files_path _ _ _ _ _ _ _ w h
        rw [hpw] at hpath
        have hst := mkPath_inj folder base _ _ hpath
        subst hst
        rw [stemStepApp_mono_case O folder base sr pred _ _ a ha hs hster] at h
        have hd := (writeDelta_files_path _ _ _ _ _ _ _ w h).2
        rw [hd]
        exact Arr.squeeze_toList a hwf

/-- C7 witness: a concrete run with already-mono vocals. -/
theorem mono_stem_used_as_is_no_denoise_witness :
    (∀ st q, Event.denoiseApplied "vocals" st q ∉
        (extract_stems_app oracleOk "out" "b"
          (fun s => if s = "vocals" then some (.a1 [1, 2]) else none)
          44100).events) ∧
    (∀ w ∈ (extract_stems_app oracleOk "out" "b"
        (fun s => if s = "vocals" then some (.a1 [1, 2]) else none)
        44100).files,
      w.path = mkPath "out" "b" "vocals" →
        w.data.toList = (Arr.a1 [1, 2]).toList) :=
  mono_stem_used_as_is_no_denoise oracleOk "out" "b"
    (fun s => if s = "vocals" then some (.a1 [1, 2]) else none) 44100
    "vocals" (.a1 [1, 2]) rfl rfl rfl (by decide)

/-- C2 counterexample: in src/pages/English.py an exception while writing
the piano stem aborts the whole extraction: the returned mapping is
empty even though the vocals stem had already succeeded (its artifact
file was written), so succeeded stems do not appear in the mapping and
the remaining stem (other) is never processed. -/
theorem english_stem_exception_discards_succeeded_stems :
    (extract_stems_english (oracleFailPath "out/b_piano.wav") "out" "b"
        (fun _ => some (.a1 [1])) 44100).result = [] ∧
    (⟨"out/b_vocals.wav", .a1 [1], 44100, "PCM_16"⟩ : WavFile) ∈
      (extract_stems_english (oracleFailPath "out/b_piano.wav") "out" "b"
        (fun _ => some (.a1 [1])) 44100).files ∧
    (extract_stems_english (oracleFailPath "out/b_piano.wav") "out" "b"
        (fun _ => some (.a1 [1])) 44100).files.length = 3 := by
  decide

/-- C2 amended (app side): in src/app.py an exception raised while
post-processing one stem (here: the denoiser raising on vocals) is
caught and reported as a per-stem error, the remaining stems are still
processed (drums still produces its artifact), and the failed stem is
absent from the returned mapping.  In the English.py variant the same
exception aborts the whole loop and an empty mapping is returned. -/
theorem app_stem_failure_isolated
    (O : Oracles) (folder base : String) (pred : String → Option Arr) (sr : Nat)
    (cv : Nat) (rv : List (List ℚ)) (cd : Nat) (rd : List (List ℚ))
    (hv : pred "vocals" = some (.a2 cv rv)) (hcv : 1 < cv) (hrv : rv ≠ [])
    (hden : O.reduceNoise (Arr.a2 cv rv).meanAxis1.toList sr false (6/10)
      none none = none)
    (hd : pred "drums" = some (.a2 cd rd)) (hcd : 1 < cd) (hrd : rd ≠ [])
    (hwd : O.sfWrite (mkPath folder base "drums")
      ((Arr.a2 cd rd).meanAxis1) sr = true) :
    Event.errorStem "vocals" ∈
      (extract_stems_app O folder base pred sr).events ∧
    ("drums", mkPath folder base "drums") ∈
      (extract_stems_app O folder base pred sr).result ∧
    "vocals" ∉ (extract_stems_app O folder base pred sr).result.map Prod.fst := by
  have hszv : (Arr.a2 cv rv).size ≠ 0 := by
    simp only [Arr.size]
    exact Nat.mul_ne_zero (by simpa using hrv) (by omega)
  have hszd : (Arr.a2 cd rd).size ≠ 0 := by
    simp only [Arr.size]
    exact Nat.mul_ne_zero (by simpa using hrd) (by omega)
  have hmd : 0 < ((Arr.a2 cd rd).meanAxis1).size := by
    simp only [Arr.meanAxis1, Arr.size, List.length_map]
    exact List.length_pos.mpr hrd
  have hvd : stemStepApp O folder base sr pred 0 "vocals" =
      ⟨[], [.errorStem "vocals", .progress 1 5], []⟩ := by
    unfold stemStepApp stemBody
    simp [hv, hszv, Arr.ndim, Arr.shape1, hcv, hden]
  have hdd : stemStepApp O folder base sr pred 1 "drums" =
      ⟨[⟨mkPath folder base "drums", (Arr.a2 cd rd).meanAxis1, sr, "PCM_16"⟩],
       [.progress 2 5],
       [("drums", mkPath folder base "drums")]⟩ := by
    unfold stemStepApp stemBody writeDelta
    simp [hd, hszd, Arr.ndim, Arr.shape1, hcd, hmd, hwd]
  refine ⟨?_, ?_, ?_⟩
  · rw [extract_app_events, hvd]
    simp
  · rw [extract_app_result, hdd]
    simp
  · intro hmem
    rw [extract_app_result, hvd] at hmem
    simp only [List.map_append, List.mem_append] at hmem
    rcases hmem with h | h | h | h | h
    · simp at h
    · rw [hdd] at h
      simp at h
    · obtain ⟨q, hq, hqs⟩ := List.mem_map.mp h
      obtain ⟨h1, -⟩ := stemStepApp_sound _ _ _ _ _ _ _ q hq
      rw [h1] at hqs
      simp at hqs
    · obtain ⟨q, hq, hqs⟩ := List.mem_map.mp h
      obtain ⟨h1, -⟩ := stemStepApp_sound _ _ _ _ _ _ _ q hq
      rw [h1] at hqs
      simp at hqs
    · obtain ⟨q, hq, hqs⟩ := List.mem_map.mp h
      obtain ⟨h1, -⟩ := stemStepApp_sound _ _ _ _ _ _ _ q hq
      rw [h1] at hqs
      simp at hqs

/-- C2 witness: concrete stereo vocals and drums with a denoiser that
always raises. -/
theorem app_stem_failure_isolated_witness :
    Event.errorStem "vocals" ∈
      (extract_stems_app oracleDenoiseRaises "out" "b" predStereoVD
        44100).events ∧
    ("drums", mkPath "out" "b" "drums") ∈
      (extract_stems_app oracleDenoiseRaises "out" "b" predStereoVD
        44100).result ∧
    "vocals" ∉ (extract_stems_app oracleDenoiseRaises "out" "b" predStereoVD
        44100).result.map Prod.fst :=
  app_stem_failure_isolated oracleDenoiseRaises "out" "b" predStereoVD 44100
    2 [[1, 3]] 2 [[2, 4]] rfl (by decide) (by decide) rfl
    rfl (by decide) (by decide) rfl

/-- C8 counterexample: in src/pages/English.py there is no emptiness
validation, so an empty vocals buffer reaches sf.write (an empty file
is written) and the vocals stem still appears in the returned mapping. -/
theorem english_empty_buffer_written :
    (⟨"out/b_vocals.wav", .a1 [], 44100, "PCM_16"⟩ : WavFile) ∈
      (extract_stems_english oracleOk "out" "b"
        (fun s => if s = "vocals" then some (.a1 []) else none)
        44100).files ∧
    ("vocals", "out/b_vocals.wav") ∈
      (extract_stems_english oracleOk "out" "b"
        (fun s => if s = "vocals" then some (.a1 []) else none)
        44100).result := by
  decide

/-- C8 amended (app side): in src/app.py, when post-processing yields an
empty buffer (the denoiser returning an empty signal on stereo vocals),
the empty-result warning is emitted, the stem does not appear in the
returned mapping, and no file is written at the stem's path.  The
English.py variant performs no such validation (see the counterexample). -/
theorem app_empty_processed_skipped
    (O : Oracles) (folder base : String) (pred : String → Option Arr) (sr : Nat)
    (cv : Nat) (rv : List (List ℚ))
    (hv : pred "vocals" = some (.a2 cv rv)) (hcv : 1 < cv) (hrv : rv ≠ [])
    (hden : O.reduceNoise (Arr.a2 cv rv).meanAxis1.toList sr false (6/10)
      none none = some []) :
    Event.warnEmpty "vocals" ∈
      (extract_stems_app O folder base pred sr).events ∧
    "vocals" ∉ (extract_stems_app O folder base pred sr).result.map Prod.fst ∧
    ∀ w ∈ (extract_stems_app O folder base pred sr).files,
      w.path ≠ mkPath folder base "vocals" := by
  have hszv : (Arr.a2 cv rv).size ≠ 0 := by
    simp only [Arr.size]
    exact Nat.mul_ne_zero (by simpa using hrv) (by omega)
  have hvd : stemStepApp O folder base sr pred 0 "vocals" =
      ⟨[], [.denoiseApplied "vocals" false (6/10), .warnEmpty "vocals",
            .progress 1 5], []⟩ := by
    unfold stemStepApp stemBody writeDelta
    simp [hv, hszv, Arr.ndim, Arr.shape1, hcv, hden, Arr.size, hrv]
    omega
  refine ⟨?_, ?_, ?_⟩
  · rw [extract_app_events, hvd]
    simp
  · intro hmem
    rw [extract_app_result, hvd] at hmem
    simp only [List.map_append, List.mem_append] at hmem
    rcases hmem with h | h | h | h | h
    · simp at h
    · obtain ⟨q, hq, hqs⟩ := List.mem_map.mp h
      obtain ⟨h1, -⟩ := stemStepApp_sound _ _ _ _ _ _ _ q hq
      rw [h1] at hqs
      simp at hqs
    · obtain ⟨q, hq, hqs⟩ := List.mem_map.mp h
      obtain ⟨h1, -⟩ := stemStepApp_sound _ _ _ _ _ _ _ q hq
      rw [h1] at hqs
      simp at hqs
    · obtain ⟨q, hq, hqs⟩ := List.mem_map.mp h
      obtain ⟨h1, -⟩ := stemStepApp_sound _ _ _ _ _ _ _ q hq
      rw [h1] at hqs
      simp at hqs
    · obtain ⟨q, hq, hqs⟩ := List.mem_map.mp h
      obtain ⟨h1, -⟩ := stemStepApp_sound _ _ _ _ _ _ _ q hq
      rw [h1] at hqs
      simp at hqs
  · intro w hw hpath
    rw [extract_app_files, hvd] at hw
    simp only [List.mem_append] at hw
    rcases hw with h | h | h | h | h
    · simp at h
    · have hpw := stemStepApp_files_path _ _ _ _ _ _ _ w h
      rw [hpw] at hpath
      have := mkPath_inj folder base _ _ hpath
      simp at this
    · have hpw := stemStepApp_files_path _ _ _ _ _ _ _ w h
      rw [hpw] at hpath
      have := mkPath_inj folder base _ _ hpath
      simp at this
    · have hpw := stemStepApp_files_path _ _ _ _ _ _ _ w h
      rw [hpw] at hpath
      have := mkPath_inj folder base _ _ hpath
      simp at this
    · have hpw := stemStepApp_files_path _ _ _ _ _ _ _ w h
      rw [hpw] at hpath
      have := mkPath_inj folder base _ _ hpath
      simp at this

/-- C8 witness: stereo vocals whose denoised signal comes back empty. -/
theorem app_empty_processed_skipped_witness :
    Event.warnEmpty "vocals" ∈
      (extract_stems_app oracleDenoiseEmpty "out" "b" predStereoVD
        44100).events ∧
    "vocals" ∉ (extract_stems_app oracleDenoiseEmpty "out" "b" predStereoVD
        44100).result.map Prod.fst ∧
    ∀ w ∈ (extract_stems_app oracleDenoiseEmpty "out" "b" predStereoVD
        44100).files,
      w.path ≠ mkPath "out" "b" "vocals" :=
  app_empty_processed_skipped oracleDenoiseEmpty "out" "b" predStereoVD 44100
    2 [[1, 3]] rfl (by decide) (by decide) rfl

end StemSep
